import Mathlib

namespace SDWebRecovery

/-!
Verification of SDWebRecovery (`src/main.cpp`), an ESP32 web server that
exposes an SD card over HTTP: a raw sector-by-sector image endpoint
(`streamRaw`), a JSON directory listing (`printDirectory`), a static file
server (`loadFromSdCard`), and a diagnostic not-found fallback
(`handleNotFound`).

The C++ source is shallowly embedded below.  Machine integers are modelled
as `Nat` with explicit `% 2 ^ 32` where the 32-bit `size_t` of the ESP32
target matters.  Fallible SD operations return `Option`.  Side effects
(handle open/close, chunks written to the HTTP client) are modelled as
explicit event traces.
-/

/-! ## Raw image streaming (`streamRaw`, main.cpp lines 123-153) -/

/-- `#define DAMAGEDSECTOR 0xE5` (main.cpp line 49): byte used to fill the
sector buffer when a raw sector read fails. -/
def DAMAGEDSECTOR : Nat := 0xE5

/-- The block device as seen through the SD library: `SD.numSectors()`,
`SD.sectorSize()`, and `SD.readRAW(buf, sector)` which either fills the
whole `sectorSize`-byte buffer and returns true (modelled `some data`) or
returns false (modelled `none`). -/
structure BlockDevice where
  sectors : Nat
  sectorSize : Nat
  readRAW : Nat → Option (List Nat)

/-- A successful `SD.readRAW` fills exactly one sector worth of bytes. -/
def BlockDevice.WF (dev : BlockDevice) : Prop :=
  ∀ i d, dev.readRAW i = some d → d.length = dev.sectorSize

/-- Contents of the reused sector buffer after the loop body for sector `i`
(main.cpp lines 144-149): the true sector data on success, the whole buffer
memset to `DAMAGEDSECTOR` on failure. -/
def sectorData (dev : BlockDevice) (i : Nat) : List Nat :=
  match dev.readRAW i with
  | some d => d
  | none => List.replicate dev.sectorSize DAMAGEDSECTOR

/-- The complete body of the `/raw` response: the loop
`for (sector = 0; sector < sectors; sector++)` sends the buffer
(`sectorSize` bytes) once per sector, in ascending order
(main.cpp lines 144-152). -/
def streamRawBody (dev : BlockDevice) : List Nat :=
  (List.range dev.sectors).flatMap (sectorData dev)

/-- `size_t sdSize = sectors*sectorSize;` (main.cpp line 128) followed by
`server.setContentLength(sdSize)` (line 141).  `sectors` is `uint64_t`,
`sectorSize` is `size_t`; the product is computed in 64 bits and then
truncated by the assignment to the 32-bit `size_t` of the ESP32 target. -/
def streamRawDeclaredLength (dev : BlockDevice) : Nat :=
  dev.sectors * dev.sectorSize % 2 ^ 32

/-- A concrete 3-sector device whose middle sector fails to read. -/
def devW : BlockDevice := ⟨3, 2, fun i => if i = 1 then none else some [5, 7]⟩

/-- An 8-GiB-class device: 2^23 sectors of 512 bytes, product exactly 2^32
(every read failing; the marker substitution is irrelevant to the length). -/
def devBig : BlockDevice := ⟨8388608, 512, fun _ => none⟩

/-! ## Content-type resolution (`loadFromSdCard`, main.cpp lines 70-98) -/

/-- Arduino `String::endsWith`, modelled on the character sequence. -/
def strEndsWith (s t : String) : Bool := List.isSuffixOf t.data s.data

/-- Removal of the last `n` characters, as performed by
`path.substring(0, path.length() - n)`. -/
def strDropRight (s : String) (n : Nat) : String :=
  ⟨s.data.take (s.data.length - n)⟩

/-- Lines 71-98 of `loadFromSdCard`: the resolved path and MIME type are
computed before any filesystem access.  On a path ending in `".src"`,
`path.substring(0, path.lastIndexOf("."))` removes exactly those four
characters, because the last dot of such a path is the one before `src`;
it is modelled as `String.dropRight 4`. -/
def loadContentType (path0 : String) : String × String :=
  let path := if strEndsWith path0 "/" then path0 ++ "index.htm" else path0
  if strEndsWith path ".src" then (strDropRight path 4, "text/plain")
  else if strEndsWith path ".htm" then (path, "text/html")
  else if strEndsWith path ".css" then (path, "text/css")
  else if strEndsWith path ".js" then (path, "application/javascript")
  else if strEndsWith path ".png" then (path, "image/png")
  else if strEndsWith path ".gif" then (path, "image/gif")
  else if strEndsWith path ".jpg" then (path, "image/jpeg")
  else if strEndsWith path ".ico" then (path, "image/x-icon")
  else if strEndsWith path ".xml" then (path, "text/xml")
  else if strEndsWith path ".pdf" then (path, "application/pdf")
  else if strEndsWith path ".zip" then (path, "application/zip")
  else (path, "text/plain")

/-- The fixed case-sensitive suffix table named by the spec. -/
def mimeTable : List (String × String) :=
  [(".htm", "text/html"), (".css", "text/css"), (".js", "application/javascript"),
   (".png", "image/png"), (".gif", "image/gif"), (".jpg", "image/jpeg"),
   (".ico", "image/x-icon"), (".xml", "text/xml"), (".pdf", "application/pdf"),
   (".zip", "application/zip")]

/-- Modelled from the spec's words, for comparison with `loadContentType`:
append `index.htm` to a path ending in `/`; a `.src` suffix is stripped with
MIME `text/plain`, taking precedence over the table; otherwise the suffix is
looked up in the fixed case-sensitive table, defaulting to `text/plain`. -/
def specContentTypeResolver (path0 : String) : String × String :=
  let path := if strEndsWith path0 "/" then path0 ++ "index.htm" else path0
  if strEndsWith path ".src" then (strDropRight path 4, "text/plain")
  else
    match mimeTable.find? (fun e => strEndsWith path e.1) with
    | some e => (path, e.2)
    | none => (path, "text/plain")

/-! ## Directory listing (`printDirectory`, main.cpp lines 155-196) -/

/-- A child entry as yielded by `dir.openNextFile()`: its `isDirectory()`
flag and its `path()`. -/
structure DirEntry where
  isDir : Bool
  path : String
deriving DecidableEq

/-- A node opened by `SD.open`: its directory flag and, for directories, the
children in the filesystem's natural enumeration order. -/
structure FsNode where
  isDir : Bool
  entries : List DirEntry
deriving DecidableEq

/-- The SD filesystem interface used by `printDirectory`: `SD.exists` and
`SD.open` (an invalid handle is modelled as `none`). -/
structure FS where
  sdExists : String → Bool
  openFile : String → Option FsNode

/-- Events of one `printDirectory` run: filesystem calls, handle lifetimes,
and chunks written to the HTTP client. -/
inductive PEv where
  | fsExists (p : String)
  | fsOpenDir (p : String)
  | fsCloseDir (p : String)
  | openEntry (p : String)
  | closeEntry (p : String)
  | send (s : String)
  | sendFail (msg : String)
deriving DecidableEq

/-- An HTTP response: status code, MIME type, body. -/
structure Resp where
  code : Nat
  mime : String
  body : String
deriving DecidableEq

/-- `returnFail` (main.cpp lines 66-68): status 500, `text/plain`, the
message followed by CRLF. -/
def returnFail (msg : String) : Resp := ⟨500, "text/plain", msg ++ "\r\n"⟩

/-- One serialized entry (main.cpp lines 185-190): an object carrying a
`type` field (`dir` or `file`) and a `name` field holding `entry.path()`. -/
def serializeEntry (e : DirEntry) : String :=
  "\x7b\"type\":\"" ++ (if e.isDir then "dir" else "file")
    ++ "\",\"name\":\"" ++ e.path ++ "\"\x7d"

/-- The chunk sent for the entry at loop counter `cnt` (lines 180-191):
a leading comma for every entry but the first. -/
def entryChunk (cnt : Nat) (e : DirEntry) : String :=
  (if 0 < cnt then "," else "") ++ serializeEntry e

/-- Events of the enumeration loop (lines 174-193) starting at loop counter
`cnt`: each entry is opened, its chunk is sent, and the entry is closed
immediately. -/
def entryEvents : Nat → List DirEntry → List PEv
  | _, [] => []
  | cnt, e :: rest =>
      PEv.openEntry e.path :: PEv.send (entryChunk cnt e)
        :: PEv.closeEntry e.path :: entryEvents (cnt + 1) rest

/-- Concatenation of everything sent with `server.sendContent`. -/
def sentOf : List PEv → String
  | [] => ""
  | PEv.send s :: rest => s ++ sentOf rest
  | _ :: rest => sentOf rest

/-- `printDirectory` (main.cpp lines 155-196): the resulting response and
event trace.  The source calls `SD.exists` only when `dir` is not `"/"`
(short-circuit on line 160); when `SD.open` yields an invalid handle,
`isDirectory()` is false and the `dir.close()` on line 166 is a no-op on the
invalid handle, so no handle events are recorded for that case. -/
def printDirectoryRun (fs : FS) (args : List (String × String)) :
    Resp × List PEv :=
  match args.lookup "dir" with
  | none => (returnFail "BAD ARGS", [PEv.sendFail "BAD ARGS"])
  | some path =>
      let exEv : List PEv := if path = "/" then [] else [PEv.fsExists path]
      if path ≠ "/" ∧ fs.sdExists path = false then
        (returnFail "BAD PATH", exEv ++ [PEv.sendFail "BAD PATH"])
      else
        match fs.openFile path with
        | none => (returnFail "NOT DIR", exEv ++ [PEv.sendFail "NOT DIR"])
        | some node =>
            if node.isDir then
              let t := PEv.fsOpenDir path :: PEv.send "["
                :: (entryEvents 0 node.entries
                    ++ [PEv.send "]", PEv.fsCloseDir path])
              (⟨200, "text/json", sentOf t⟩, exEv ++ t)
            else
              (returnFail "NOT DIR",
                exEv ++ [PEv.fsOpenDir path, PEv.fsCloseDir path,
                  PEv.sendFail "NOT DIR"])

/-- Comma-prefixed concatenation of the given pieces. -/
def commaJoin : List String → String
  | [] => ""
  | [s] => "," ++ s
  | s :: rest => ("," ++ s) ++ commaJoin rest

/-- The pieces separated by commas: a comma before every piece except the
first, hence exactly `N - 1` separators for `N` pieces. -/
def sepConcat : List String → String
  | [] => ""
  | [s] => s
  | s :: rest => s ++ commaJoin rest

/-- Rendering of one string-valued JSON object field. -/
def jsonStrField (k v : String) : String := "\"" ++ k ++ "\":\"" ++ v ++ "\""

/-- Rendering of a JSON object with string-valued fields (valid JSON when no
key or value needs escaping). -/
def renderObj (fields : List (String × String)) : String :=
  "\x7b" ++ sepConcat (fields.map fun kv => jsonStrField kv.1 kv.2) ++ "\x7d"

/-- Rendering of a JSON array of such objects. -/
def renderArrOfObjs (objs : List (List (String × String))) : String :=
  "[" ++ sepConcat (objs.map renderObj) ++ "]"

/-- The two fields of one listing entry. -/
def entryFields (e : DirEntry) : List (String × String) :=
  [("type", if e.isDir then "dir" else "file"), ("name", e.path)]

/-- Checks that entry handles are used one at a time: every `openEntry` is
followed immediately by one `send` and the matching `closeEntry`, and no
entry event appears otherwise. -/
def oneEntryAtATime : List PEv → Bool
  | [] => true
  | PEv.openEntry p :: PEv.send _ :: PEv.closeEntry q :: rest =>
      p == q && oneEntryAtATime rest
  | PEv.openEntry _ :: _ => false
  | PEv.closeEntry _ :: _ => false
  | _ :: rest => oneEntryAtATime rest

/-- Filesystem-touching events. -/
def isFsOp : PEv → Bool
  | PEv.fsExists _ => true
  | PEv.fsOpenDir _ => true
  | PEv.fsCloseDir _ => true
  | PEv.openEntry _ => true
  | PEv.closeEntry _ => true
  | _ => false

/-- Listing-content events (`server.sendContent` of body chunks). -/
def isSendContent : PEv → Bool
  | PEv.send _ => true
  | _ => false

/-- A concrete filesystem whose root holds one file and one directory. -/
def fsL : FS :=
  ⟨fun _ => true,
   fun q => if q = "/" then some ⟨true, [⟨false, "/a.txt"⟩, ⟨true, "/b"⟩]⟩
     else none⟩

/-- The empty filesystem (device never opened anything). -/
def fsEmpty : FS := ⟨fun _ => false, fun _ => none⟩

/-- A concrete filesystem holding one plain file at `/f`. -/
def fsW : FS :=
  ⟨fun _ => true, fun q => if q = "/f" then some ⟨false, []⟩ else none⟩

/-! ## Static file serving (`loadFromSdCard`, main.cpp lines 100-121) -/

/-- Handle events of one `loadFromSdCard` run. -/
inductive FEv where
  | fsOpen (p : String)
  | fsClose (p : String)
  | stream (p : String)
deriving DecidableEq

/-- `loadFromSdCard` (main.cpp lines 100-121) after the content-type
resolution of lines 71-98: returns whether a file was served, the MIME type
used, and the handle events.  `File` is an RAII handle: the reassignment
`dataFile = SD.open(...)` on line 104 releases the handle opened on line
100, and returning releases whatever `dataFile` still holds; `SD.open` on a
missing path yields an invalid handle (modelled `none`), on which
`isDirectory()` is false and release is a no-op, so the early
`return false` on line 108 records no events. -/
def loadFromSdCard (fs : FS) (download : Bool) (path0 : String) :
    Bool × String × List FEv :=
  let pm := loadContentType path0
  match fs.openFile pm.1 with
  | none => (false, pm.2, [])
  | some node =>
      if node.isDir then
        let path2 := pm.1 ++ "/index.htm"
        match fs.openFile path2 with
        | none => (false, "text/html", [FEv.fsOpen pm.1, FEv.fsClose pm.1])
        | some _ =>
            (true,
              if download then "application/octet-stream" else "text/html",
              [FEv.fsOpen pm.1, FEv.fsClose pm.1,
                FEv.fsOpen path2, FEv.stream path2, FEv.fsClose path2])
      else
        (true,
          if download then "application/octet-stream" else pm.2,
          [FEv.fsOpen pm.1, FEv.stream pm.1, FEv.fsClose pm.1])

/-- Removes the first occurrence of `p`. -/
def remFirst (p : String) : List String → List String
  | [] => []
  | q :: rest => if q = p then rest else q :: remFirst p rest

/-- Handles still open after the given events. -/
def openHandles (t : List FEv) : List String :=
  t.foldl
    (fun acc ev =>
      match ev with
      | FEv.fsOpen p => p :: acc
      | FEv.fsClose p => remFirst p acc
      | FEv.stream _ => acc)
    []

/-! ## Not-found fallback (`handleNotFound`, main.cpp lines 198-218) -/

/-- The HTTP methods distinguished by the underlying web server. -/
inductive HMethod where
  | GET
  | POST
  | PUT
  | DELETE
  | PATCH
  | HEAD
  | OPTIONS
deriving DecidableEq

/-- A request as seen by the fallback: `server.uri()`, `server.method()`,
and the query arguments (name, value). -/
structure Req where
  uri : String
  method : HMethod
  args : List (String × String)

/-- `(server.method() == HTTP_GET) ? "GET" : "POST"` (main.cpp line 209). -/
def methodText (m : HMethod) : String :=
  match m with
  | HMethod.GET => "GET"
  | _ => "POST"

/-- The per-argument lines of the loop on main.cpp lines 213-215. -/
def argLines : List (String × String) → String
  | [] => ""
  | a :: rest =>
      " NAME:" ++ a.1 ++ "\n VALUE:" ++ a.2 ++ "\n" ++ argLines rest

/-- The diagnostic body built by `handleNotFound` (main.cpp lines 202-215).
The loop counter on line 213 is a `uint8_t`, so the loop enumerates all
arguments (and terminates) exactly when there are at most 255 of them; with
256 or more arguments the counter wraps around before reaching
`server.args()`, the source loops forever and never sends a response.  This
definition therefore models only runs with at most 255 arguments, the bound
assumed by the theorems below. -/
def handleNotFoundBody (hasSD : Bool) (r : Req) : String :=
  (if hasSD then "" else "SDCARD Not Detected\n\n")
    ++ "URI: " ++ r.uri
    ++ "\nMethod: " ++ methodText r.method
    ++ "\nArguments: " ++ toString r.args.length ++ "\n"
    ++ argLines r.args

/-- `server.send(404, "text/plain", message)` (main.cpp line 216). -/
def handleNotFoundResp (hasSD : Bool) (r : Req) : Resp :=
  ⟨404, "text/plain", handleNotFoundBody hasSD r⟩

/-- `big` contains `small` as a contiguous substring. -/
def containsSub (big small : String) : Prop :=
  ∃ pre post, big = pre ++ small ++ post

/-- `small` is a leading run of `big` (executable). -/
def subAt : List Char → List Char → Bool
  | _, [] => true
  | [], _ :: _ => false
  | a :: as, b :: bs => a == b && subAt as bs

/-- `small` occurs contiguously somewhere in `big` (executable). -/
def occursIn : List Char → List Char → Bool
  | [], small => subAt [] small
  | a :: as, small => subAt (a :: as) small || occursIn as small

/-- A concrete request with one query argument. -/
def reqW : Req := ⟨"/nope", HMethod.GET, [("a", "1")]⟩

/-- A PUT request. -/
def reqPut : Req := ⟨"/x", HMethod.PUT, []⟩

/-! ## The DeviceAvailability flag (`hasSD`, main.cpp lines 59, 199, 203,
258-268) -/

/-- Process-lifetime events relevant to the `hasSD` flag. -/
inductive LEv where
  | serverBegin
  | writeHasSD (b : Bool)
  | handleReq (n : Nat)
deriving DecidableEq

/-- Process lifetime (`setup()` lines 256-268, then `loop()` lines 271-274):
after routing registration, `server.begin()` is called (line 262); then
`SD.begin` is attempted and on success `hasSD = true` (line 267) is the only
assignment to the flag in the whole program; afterwards `loop()` handles
requests one at a time. -/
def lifecycle (sdDetected : Bool) (reqs : List Nat) : List LEv :=
  LEv.serverBegin
    :: ((if sdDetected then [LEv.writeHasSD true] else [])
      ++ reqs.map LEv.handleReq)

/-- Flag-write events. -/
def isWrite : LEv → Bool
  | LEv.writeHasSD _ => true
  | _ => false

/-- No flag write occurs at or after the first handled request. -/
def noWriteAfterHandle : List LEv → Bool
  | [] => true
  | LEv.handleReq _ :: rest => rest.all (fun e => !isWrite e)
  | _ :: rest => noWriteAfterHandle rest

/-- The `/list` handler, given access to the global `hasSD` flag: the source
of `printDirectory` (lines 155-196) never references `hasSD`. -/
def printDirectoryFull (_hasSD : Bool) (fs : FS)
    (args : List (String × String)) : Resp × List PEv :=
  printDirectoryRun fs args

/-- The `/raw` handler, given access to the global `hasSD` flag: the source
of `streamRaw` (lines 123-153) never references `hasSD`. -/
def streamRawFull (_hasSD : Bool) (dev : BlockDevice) : Nat × List Nat :=
  (streamRawDeclaredLength dev, streamRawBody dev)

/-- The fallback handler, which reads `hasSD` (lines 199 and 203). -/
def handleNotFoundFull (hasSD : Bool) (r : Req) : Resp :=
  handleNotFoundResp hasSD r

/-- The claim's assertion, for the `/list` handler: its observable behaviour
(response and trace) depends on the `hasSD` flag for some input. -/
def printDirectoryReadsFlag : Prop :=
  ∃ fs args b b', printDirectoryFull b fs args ≠ printDirectoryFull b' fs args

/-! ## Theorems -/

theorem sectorData_length (dev : BlockDevice) (hwf : dev.WF) (i : Nat) :
    (sectorData dev i).length = dev.sectorSize := by
  cases h : dev.readRAW i with
  | none => simp [sectorData, h]
  | some d => simpa [sectorData, h] using hwf i d h

theorem streamRawBody_length (dev : BlockDevice) (hwf : dev.WF) :
    (streamRawBody dev).length = dev.sectors * dev.sectorSize := by
  unfold streamRawBody
  rw [List.length_flatMap]
  have hmap : (List.range dev.sectors).map (List.length ∘ sectorData dev)
      = (List.range dev.sectors).map (fun _ => dev.sectorSize) :=
    List.map_congr_left (fun j _ => sectorData_length dev hwf j)
  rw [hmap, List.map_const', List.sum_replicate, List.length_range, smul_eq_mul]

theorem flatMap_fixed_block_extract {α : Type} (f : Nat → List α) (k n i : Nat)
    (hlen : ∀ j, j < n → (f j).length = k) (hi : i < n) :
    (((List.range n).flatMap f).drop (i * k)).take k = f i := by
  have hsplit : n = i + ((n - i - 1) + 1) := by omega
  rw [hsplit, List.range_add, List.flatMap_append]
  have hfront : ((List.range i).flatMap f).length = i * k := by
    rw [List.length_flatMap]
    have hmap : (List.range i).map (List.length ∘ f)
        = (List.range i).map (fun _ => k) :=
      List.map_congr_left (fun j hj => hlen j (by
        have := List.mem_range.mp hj
        omega))
    rw [hmap, List.map_const', List.sum_replicate, List.length_range, smul_eq_mul]
  rw [List.drop_left' hfront, List.range_succ_eq_map]
  simp only [List.map_cons, List.flatMap_cons, Nat.add_zero]
  exact List.take_left' (hlen i hi)

/-- Claim C1: for every block device and sector index `i < sectorCount`, the
byte range `[i*sectorSize, (i+1)*sectorSize)` of the `/raw` body equals the
true content of sector `i` when `SD.readRAW` succeeds, and `sectorSize`
repetitions of the damaged-sector marker `0xE5` when it fails; the range is
never a mix, never a different length, and sectors appear in ascending
order, each exactly once (the extraction identity holds at every index). -/
theorem raw_stream_sector_ranges (dev : BlockDevice) (hwf : dev.WF)
    (i : Nat) (hi : i < dev.sectors) :
    ((((streamRawBody dev).drop (i * dev.sectorSize)).take dev.sectorSize
        = sectorData dev i)
      ∧ (∀ d, dev.readRAW i = some d → sectorData dev i = d)
      ∧ (dev.readRAW i = none →
          sectorData dev i = List.replicate dev.sectorSize DAMAGEDSECTOR)
      ∧ (sectorData dev i).length = dev.sectorSize) := by
  refine ⟨?_, ?_, ?_, sectorData_length dev hwf i⟩
  · exact flatMap_fixed_block_extract (sectorData dev) dev.sectorSize dev.sectors i
      (fun j _ => sectorData_length dev hwf j) hi
  · intro d hd; simp [sectorData, hd]
  · intro hd; simp [sectorData, hd]

theorem devW_wf : devW.WF := by
  intro i d h
  by_cases hi : i = 1
  · simp [devW, hi] at h
  · simp [devW, hi] at h
    rw [← h]; rfl

theorem raw_stream_sector_ranges_witness :
    devW.WF ∧ 1 < devW.sectors ∧
      ((((streamRawBody devW).drop (1 * devW.sectorSize)).take devW.sectorSize
          = sectorData devW 1)
        ∧ (∀ d, devW.readRAW 1 = some d → sectorData devW 1 = d)
        ∧ (devW.readRAW 1 = none →
            sectorData devW 1 = List.replicate devW.sectorSize DAMAGEDSECTOR)
        ∧ (sectorData devW 1).length = devW.sectorSize) :=
  ⟨devW_wf, by decide, raw_stream_sector_ranges devW devW_wf 1 (by decide)⟩

theorem devBig_wf : devBig.WF := by
  intro i d h
  simp [devBig] at h

/-- Claim C2 counterexample: for `devBig` the declared content length is the
product truncated to 32 bits (`0`), not the mathematical product `2^32`, and
the number of body bytes (`2^32`) differs from the declared length. -/
theorem raw_stream_declared_length_counterexample :
    streamRawDeclaredLength devBig ≠ devBig.sectors * devBig.sectorSize ∧
    (streamRawBody devBig).length ≠ streamRawDeclaredLength devBig := by
  have hl : (streamRawBody devBig).length = devBig.sectors * devBig.sectorSize :=
    streamRawBody_length devBig devBig_wf
  constructor
  · decide
  · rw [hl]; decide

/-- Claim C2 (amended): the `/raw` handler declares a content length equal to
`sectorCount * sectorSize` reduced modulo `2^32` (the assignment to the
32-bit `size_t` variable `sdSize` truncates the 64-bit product), while the
body it writes always has exactly `sectorCount * sectorSize` bytes,
independent of how many sector reads failed; the two coincide exactly when
the product fits in 32 bits. -/
theorem raw_stream_declared_vs_emitted (dev : BlockDevice) (hwf : dev.WF) :
    (streamRawBody dev).length = dev.sectors * dev.sectorSize
    ∧ streamRawDeclaredLength dev = dev.sectors * dev.sectorSize % 2 ^ 32
    ∧ (dev.sectors * dev.sectorSize < 2 ^ 32 →
        streamRawDeclaredLength dev = (streamRawBody dev).length) := by
  refine ⟨streamRawBody_length dev hwf, rfl, ?_⟩
  intro h
  rw [streamRawBody_length dev hwf]
  exact Nat.mod_eq_of_lt h

theorem raw_stream_declared_vs_emitted_witness :
    devW.WF ∧
      ((streamRawBody devW).length = devW.sectors * devW.sectorSize
        ∧ streamRawDeclaredLength devW = devW.sectors * devW.sectorSize % 2 ^ 32
        ∧ (devW.sectors * devW.sectorSize < 2 ^ 32 →
            streamRawDeclaredLength devW = (streamRawBody devW).length)) :=
  ⟨devW_wf, raw_stream_declared_vs_emitted devW devW_wf⟩

/-- Claim C4: content-type resolution is total (both sides are total Lean
functions) and agrees with the spec's description everywhere: trailing `/`
gets `index.htm` appended, `.src` is stripped to MIME `text/plain` with
precedence over the suffix table, and otherwise the fixed case-sensitive
table applies with default `text/plain`; in particular `"foo.src"` resolves
to base path `"foo"` with `text/plain`, `"foo.htm"` yields `text/html`, and
`"dir/"` resolves to `"dir/index.htm"`. -/
theorem content_type_resolution (p : String) :
    loadContentType p = specContentTypeResolver p
    ∧ loadContentType "foo.src" = ("foo", "text/plain")
    ∧ loadContentType "foo.htm" = ("foo.htm", "text/html")
    ∧ (loadContentType "dir/").1 = "dir/index.htm" := by
  refine ⟨?_, by decide, by decide, by decide⟩
  unfold loadContentType specContentTypeResolver
  set q := if strEndsWith p "/" then p ++ "index.htm" else p with hq
  by_cases h0 : strEndsWith q ".src"
  · simp [h0]
  · by_cases h1 : strEndsWith q ".htm"
    · simp [h0, h1, mimeTable, List.find?]
    · by_cases h2 : strEndsWith q ".css"
      · simp [h0, h1, h2, mimeTable, List.find?]
      · by_cases h3 : strEndsWith q ".js"
        · simp [h0, h1, h2, h3, mimeTable, List.find?]
        · by_cases h4 : strEndsWith q ".png"
          · simp [h0, h1, h2, h3, h4, mimeTable, List.find?]
          · by_cases h5 : strEndsWith q ".gif"
            · simp [h0, h1, h2, h3, h4, h5, mimeTable, List.find?]
            · by_cases h6 : strEndsWith q ".jpg"
              · simp [h0, h1, h2, h3, h4, h5, h6, mimeTable, List.find?]
              · by_cases h7 : strEndsWith q ".ico"
                · simp [h0, h1, h2, h3, h4, h5, h6, h7, mimeTable, List.find?]
                · by_cases h8 : strEndsWith q ".xml"
                  · simp [h0, h1, h2, h3, h4, h5, h6, h7, h8, mimeTable, List.find?]
                  · by_cases h9 : strEndsWith q ".pdf"
                    · simp [h0, h1, h2, h3, h4, h5, h6, h7, h8, h9, mimeTable,
                        List.find?]
                    · by_cases h10 : strEndsWith q ".zip"
                      · simp [h0, h1, h2, h3, h4, h5, h6, h7, h8, h9, h10,
                          mimeTable, List.find?]
                      · simp [h0, h1, h2, h3, h4, h5, h6, h7, h8, h9, h10,
                          mimeTable, List.find?]

theorem str_empty_append (s : String) : "" ++ s = s := by
  obtain ⟨l⟩ := s; rfl

theorem commaJoin_cons (s : String) (rest : List String) :
    commaJoin (s :: rest) = ("," ++ s) ++ commaJoin rest := by
  cases rest with
  | nil => exact (String.append_empty _).symm
  | cons a l => rfl

theorem sepConcat_cons (s : String) (rest : List String) :
    sepConcat (s :: rest) = s ++ commaJoin rest := by
  cases rest with
  | nil => exact (String.append_empty _).symm
  | cons a l => rfl

theorem sentOf_append (a b : List PEv) :
    sentOf (a ++ b) = sentOf a ++ sentOf b := by
  induction a with
  | nil => exact (str_empty_append _).symm
  | cons e rest ih => cases e <;> simp [sentOf, ih, String.append_assoc]

theorem sentOf_entryEvents (es : List DirEntry) :
    ∀ cnt, 0 < cnt →
      sentOf (entryEvents cnt es) = commaJoin (es.map serializeEntry) := by
  induction es with
  | nil => intro cnt h; rfl
  | cons e rest ih =>
      intro cnt h
      simp only [entryEvents, sentOf, List.map, ih (cnt + 1) (Nat.succ_pos cnt),
        commaJoin_cons, entryChunk, if_pos h, String.append_assoc]

theorem sentOf_listTrace (p : String) (es : List DirEntry) :
    sentOf (PEv.fsOpenDir p :: PEv.send "["
        :: (entryEvents 0 es ++ [PEv.send "]", PEv.fsCloseDir p]))
      = "[" ++ sepConcat (es.map serializeEntry) ++ "]" := by
  simp only [sentOf, sentOf_append]
  cases es with
  | nil =>
      simp [entryEvents, sentOf, sepConcat, String.append_empty,
        str_empty_append, String.append_assoc]
  | cons e rest =>
      simp only [entryEvents, sentOf, List.map, sepConcat_cons,
        sentOf_entryEvents rest 1 (Nat.succ_pos 0), entryChunk]
      simp [str_empty_append, String.append_empty, String.append_assoc]

theorem serializeEntry_renders (e : DirEntry) :
    serializeEntry e = renderObj (entryFields e) := by
  have dOpen : ("\x7b\"type\":\"" : String).data
      = ['\x7b', '\"', 't', 'y', 'p', 'e', '\"', ':', '\"'] := rfl
  have dMid : ("\",\"name\":\"" : String).data
      = ['\"', ',', '\"', 'n', 'a', 'm', 'e', '\"', ':', '\"'] := rfl
  have dClose : ("\"\x7d" : String).data = ['\"', '\x7d'] := rfl
  have dLb : ("\x7b" : String).data = ['\x7b'] := rfl
  have dRb : ("\x7d" : String).data = ['\x7d'] := rfl
  have dQ : ("\"" : String).data = ['\"'] := rfl
  have dC : ("," : String).data = [','] := rfl
  have dCol : ("\":\"" : String).data = ['\"', ':', '\"'] := rfl
  have dType : ("type" : String).data = ['t', 'y', 'p', 'e'] := rfl
  have dName : ("name" : String).data = ['n', 'a', 'm', 'e'] := rfl
  cases e with
  | mk b q =>
      apply String.ext
      cases b <;>
        simp [serializeEntry, renderObj, entryFields, jsonStrField, sepConcat,
          commaJoin, String.data_append, dOpen, dMid, dClose, dLb, dRb, dQ,
          dC, dCol, dType, dName]

theorem oneEntryAtATime_entryEvents (es : List DirEntry) :
    ∀ cnt rest, oneEntryAtATime rest = true →
      oneEntryAtATime (entryEvents cnt es ++ rest) = true := by
  induction es with
  | nil => intro cnt rest h; simpa [entryEvents] using h
  | cons e tail ih =>
      intro cnt rest h
      simp only [entryEvents, List.cons_append, oneEntryAtATime,
        beq_self_eq_true, Bool.true_and]
      exact ih (cnt + 1) rest h

/-- Claim C3: on a directory with `N` children, the `/list` success response
body is exactly one opening bracket, the `N` entries serialized in
enumeration order with a comma before every entry except the first (exactly
`N - 1` separators, the shape of `sepConcat`), and one closing bracket; the
body coincides with the standard rendering of a JSON array of objects with
string-valued `type` and `name` fields (valid JSON whenever no entry path
needs escaping); and at most one entry handle is ever open at a time, each
entry being closed immediately after its serialization. -/
theorem list_handler_streamed_json (fs : FS) (args : List (String × String))
    (p : String) (node : FsNode)
    (hdir : args.lookup "dir" = some p)
    (hok : p = "/" ∨ fs.sdExists p = true)
    (hopen : fs.openFile p = some node)
    (hisdir : node.isDir = true) :
    (printDirectoryRun fs args).1.code = 200
    ∧ (printDirectoryRun fs args).1.body
        = "[" ++ sepConcat (node.entries.map serializeEntry) ++ "]"
    ∧ (printDirectoryRun fs args).1.body
        = renderArrOfObjs (node.entries.map entryFields)
    ∧ oneEntryAtATime (printDirectoryRun fs args).2 = true := by
  have hcond : ¬(p ≠ "/" ∧ fs.sdExists p = false) := by
    rcases hok with h | h
    · intro hc; exact hc.1 h
    · intro hc; rw [h] at hc; exact Bool.noConfusion hc.2
  have hrun : printDirectoryRun fs args
      = (⟨200, "text/json",
            sentOf (PEv.fsOpenDir p :: PEv.send "["
              :: (entryEvents 0 node.entries
                  ++ [PEv.send "]", PEv.fsCloseDir p]))⟩,
          (if p = "/" then [] else [PEv.fsExists p])
            ++ (PEv.fsOpenDir p :: PEv.send "["
              :: (entryEvents 0 node.entries
                  ++ [PEv.send "]", PEv.fsCloseDir p]))) := by
    simp [printDirectoryRun, hdir, hcond, hopen, hisdir]
  refine ⟨by rw [hrun], ?_, ?_, ?_⟩
  · rw [hrun]
    exact sentOf_listTrace p node.entries
  · rw [hrun]
    show sentOf _ = renderArrOfObjs (node.entries.map entryFields)
    rw [sentOf_listTrace p node.entries, renderArrOfObjs, List.map_map]
    have : node.entries.map serializeEntry
        = node.entries.map (renderObj ∘ entryFields) :=
      List.map_congr_left (fun e _ => serializeEntry_renders e)
    rw [this]
  · rw [hrun]
    by_cases hp : p = "/"
    · simp only [hp, if_pos rfl, List.nil_append, oneEntryAtATime]
      exact oneEntryAtATime_entryEvents node.entries 0 _ rfl
    · simp only [if_neg hp, List.cons_append, List.nil_append, oneEntryAtATime]
      exact oneEntryAtATime_entryEvents node.entries 0 _ rfl

theorem list_handler_streamed_json_witness :
    (List.lookup "dir" [("dir", "/")] = some "/")
    ∧ (fsL.openFile "/" = some ⟨true, [⟨false, "/a.txt"⟩, ⟨true, "/b"⟩]⟩)
    ∧ ((printDirectoryRun fsL [("dir", "/")]).1.code = 200
        ∧ (printDirectoryRun fsL [("dir", "/")]).1.body
            = "[" ++ sepConcat (([⟨false, "/a.txt"⟩, ⟨true, "/b"⟩]
                : List DirEntry).map serializeEntry) ++ "]"
        ∧ (printDirectoryRun fsL [("dir", "/")]).1.body
            = renderArrOfObjs (([⟨false, "/a.txt"⟩, ⟨true, "/b"⟩]
                : List DirEntry).map entryFields)
        ∧ oneEntryAtATime (printDirectoryRun fsL [("dir", "/")]).2 = true) :=
  ⟨rfl, rfl,
    list_handler_streamed_json fsL [("dir", "/")] "/"
      ⟨true, [⟨false, "/a.txt"⟩, ⟨true, "/b"⟩]⟩ rfl (Or.inl rfl) rfl rfl⟩

/-- Claim C7 counterexample: requesting `/list` without a `dir` argument
produces the body `"BAD ARGS\r\n"` — the literal `"BAD ARGS"` followed by
CRLF appended by `returnFail` (main.cpp line 67) — not the bare literal the
claim states. -/
theorem list_handler_missing_dir_body_counterexample :
    (printDirectoryRun fsEmpty []).1.body = "BAD ARGS\r\n"
    ∧ (printDirectoryRun fsEmpty []).1.body ≠ "BAD ARGS" := by
  exact ⟨rfl, by decide⟩

/-- Claim C7 (amended): for every request to `/list` whose query arguments
do not include `dir`, the handler returns the `returnFail` error response
whose body is the literal text `BAD ARGS` followed by CRLF (appended by
`returnFail`), and no filesystem operation (exists, open, enumerate) is
performed before returning. -/
theorem list_handler_missing_dir (fs : FS) (args : List (String × String))
    (h : args.lookup "dir" = none) :
    (printDirectoryRun fs args).1 = returnFail "BAD ARGS"
    ∧ (printDirectoryRun fs args).1.body = "BAD ARGS" ++ "\r\n"
    ∧ ((printDirectoryRun fs args).2.filter isFsOp) = [] := by
  refine ⟨?_, ?_, ?_⟩ <;> simp [printDirectoryRun, h, returnFail, isFsOp]

theorem list_handler_missing_dir_witness :
    (List.lookup "dir" ([] : List (String × String)) = none)
    ∧ ((printDirectoryRun fsEmpty []).1 = returnFail "BAD ARGS"
        ∧ (printDirectoryRun fsEmpty []).1.body = "BAD ARGS" ++ "\r\n"
        ∧ ((printDirectoryRun fsEmpty []).2.filter isFsOp) = []) :=
  ⟨rfl, list_handler_missing_dir fsEmpty [] rfl⟩

/-- Claim C8: when the `dir` argument opens to an entry that is not a
directory, the handler fails with the `NOT DIR` error; the opened handle is
closed before the error response is sent (the trace ends with open, close,
then the failure send) and no listing chunk is ever emitted. -/
theorem list_handler_not_dir (fs : FS) (args : List (String × String))
    (p : String) (node : FsNode)
    (hdir : args.lookup "dir" = some p)
    (hok : p = "/" ∨ fs.sdExists p = true)
    (hopen : fs.openFile p = some node)
    (hnotdir : node.isDir = false) :
    (printDirectoryRun fs args).1 = returnFail "NOT DIR"
    ∧ (∃ pre, (printDirectoryRun fs args).2
        = pre ++ [PEv.fsOpenDir p, PEv.fsCloseDir p, PEv.sendFail "NOT DIR"])
    ∧ ((printDirectoryRun fs args).2.filter isSendContent) = [] := by
  have hcond : ¬(p ≠ "/" ∧ fs.sdExists p = false) := by
    rcases hok with h | h
    · intro hc; exact hc.1 h
    · intro hc; rw [h] at hc; exact Bool.noConfusion hc.2
  have hrun : printDirectoryRun fs args
      = (returnFail "NOT DIR",
          (if p = "/" then [] else [PEv.fsExists p])
            ++ [PEv.fsOpenDir p, PEv.fsCloseDir p, PEv.sendFail "NOT DIR"]) := by
    simp [printDirectoryRun, hdir, hcond, hopen, hnotdir]
  refine ⟨by rw [hrun], ⟨if p = "/" then [] else [PEv.fsExists p],
    by rw [hrun]⟩, ?_⟩
  rw [hrun]
  by_cases hp : p = "/" <;> simp [hp, isSendContent]

theorem list_handler_not_dir_witness :
    (List.lookup "dir" [("dir", "/f")] = some "/f")
    ∧ (fsW.sdExists "/f" = true)
    ∧ (fsW.openFile "/f" = some ⟨false, []⟩)
    ∧ ((printDirectoryRun fsW [("dir", "/f")]).1 = returnFail "NOT DIR"
        ∧ (∃ pre, (printDirectoryRun fsW [("dir", "/f")]).2
            = pre ++ [PEv.fsOpenDir "/f", PEv.fsCloseDir "/f",
                PEv.sendFail "NOT DIR"])
        ∧ ((printDirectoryRun fsW [("dir", "/f")]).2.filter isSendContent)
            = []) :=
  ⟨rfl, rfl, rfl,
    list_handler_not_dir fsW [("dir", "/f")] "/f" ⟨false, []⟩
      rfl (Or.inr rfl) rfl rfl⟩

/-- Claim C5: on every exit path of the static-file handler — the early
not-found return, the directory case that reopens `path/index.htm`, and the
successful stream — every file or directory handle it opened has been
closed by the time it returns: no handle remains open. -/
theorem static_handler_releases_handles (fs : FS) (download : Bool)
    (p : String) :
    openHandles (loadFromSdCard fs download p).2.2 = [] := by
  unfold loadFromSdCard
  cases h1 : fs.openFile (loadContentType p).1 with
  | none => simp [h1, openHandles]
  | some node =>
      cases hd : node.isDir with
      | false => simp [h1, hd, openHandles, remFirst]
      | true =>
          cases h2 : fs.openFile ((loadContentType p).1 ++ "/index.htm") with
          | none => simp [h1, hd, h2, openHandles, remFirst]
          | some g => simp [h1, hd, h2, openHandles, remFirst]

theorem containsSub_trans (big mid small : String)
    (hbm : containsSub big mid) (hms : containsSub mid small) :
    containsSub big small := by
  obtain ⟨x, y, h1⟩ := hbm
  obtain ⟨u, v, h2⟩ := hms
  exact ⟨x ++ u, v ++ y, by rw [h1, h2]; simp [String.append_assoc]⟩

theorem argLines_decomp (a : String × String) (args : List (String × String))
    (h : a ∈ args) :
    containsSub (argLines args)
      (" NAME:" ++ a.1 ++ "\n VALUE:" ++ a.2 ++ "\n") := by
  induction args with
  | nil => cases h
  | cons x rest ih =>
      rcases List.mem_cons.mp h with h1 | h2
      · subst h1
        exact ⟨"", argLines rest, by
          simp [argLines, str_empty_append, String.append_assoc]⟩
      · obtain ⟨pre, post, hp⟩ := ih h2
        exact ⟨" NAME:" ++ x.1 ++ "\n VALUE:" ++ x.2 ++ "\n" ++ pre, post, by
          simp [argLines, hp, String.append_assoc]⟩

theorem body_has_argLines (hasSD : Bool) (r : Req) :
    containsSub (handleNotFoundBody hasSD r) (argLines r.args) :=
  ⟨(if hasSD then "" else "SDCARD Not Detected\n\n")
      ++ "URI: " ++ r.uri ++ "\nMethod: " ++ methodText r.method
      ++ "\nArguments: " ++ toString r.args.length ++ "\n",
    "", by simp [handleNotFoundBody, String.append_assoc, String.append_empty]⟩

theorem subAt_iff (small big : List Char) :
    subAt big small = true ↔ ∃ rest, big = small ++ rest := by
  induction small generalizing big with
  | nil => simp [subAt]
  | cons b bs ih =>
      cases big with
      | nil => simp [subAt]
      | cons a as =>
          simp [subAt, ih as, List.cons.injEq]

theorem occursIn_iff (big small : List Char) :
    occursIn big small = true ↔ ∃ pre post, big = pre ++ (small ++ post) := by
  induction big with
  | nil => cases small <;> simp [occursIn, subAt]
  | cons a as ih =>
      simp only [occursIn, Bool.or_eq_true, subAt_iff, ih]
      constructor
      · rintro (⟨rest, h⟩ | ⟨pre, post, h⟩)
        · exact ⟨[], rest, by simpa using h⟩
        · exact ⟨a :: pre, post, by simp [h]⟩
      · rintro ⟨pre, post, h⟩
        cases pre with
        | nil => exact Or.inl ⟨post, by simpa using h⟩
        | cons x xs =>
            right
            injection h with h1 h2
            exact ⟨xs, post, h2⟩

theorem containsSub_iff_occursIn (big small : String) :
    containsSub big small ↔ occursIn big.data small.data = true := by
  rw [occursIn_iff]
  constructor
  · rintro ⟨pre, post, h⟩
    exact ⟨pre.data, post.data, by rw [h]; simp [String.data_append]⟩
  · rintro ⟨pre, post, h⟩
    refine ⟨⟨pre⟩, ⟨post⟩, ?_⟩
    apply String.ext
    simp [String.data_append, h]

/-- Claim C9 counterexample: for a concrete PUT request reaching the
fallback, the diagnostic body contains the reported label `POST` but does
not contain the request's actual method name `PUT` anywhere, so the body
does not contain "the request method" as the claim states. -/
theorem notfound_actual_method_missing_counterexample :
    ¬ containsSub (handleNotFoundBody true reqPut) "PUT"
    ∧ containsSub (handleNotFoundBody true reqPut) "POST" := by
  constructor
  · rw [containsSub_iff_occursIn]
    decide
  · rw [containsSub_iff_occursIn]
    decide

/-- Claim C9 (amended): for every request that reaches the not-found
fallback carrying at most 255 query arguments, the response has not-found
(404) status and its body contains the requested path, the reported method
label — `GET` for GET requests and `POST` for every other method, not the
actual method name — and the name and value of every query argument; the
body is prefixed with the device-unavailable notice exactly when the device
was not detected at startup.  For requests with 256 or more query arguments
the `uint8_t` loop counter on main.cpp line 213 wraps around and the
fallback never sends a response (see `handleNotFoundBody`), which is why
the bound appears as a hypothesis. -/
theorem notfound_body_diagnostics (hasSD : Bool) (r : Req)
    (_hargs : r.args.length ≤ 255) :
    (handleNotFoundResp hasSD r).code = 404
    ∧ containsSub (handleNotFoundBody hasSD r) r.uri
    ∧ containsSub (handleNotFoundBody hasSD r)
        ("\nMethod: " ++ methodText r.method)
    ∧ methodText r.method
        = (if r.method = HMethod.GET then "GET" else "POST")
    ∧ (∀ a ∈ r.args, containsSub (handleNotFoundBody hasSD r) a.1
        ∧ containsSub (handleNotFoundBody hasSD r) a.2)
    ∧ (hasSD = false ↔
        ∃ t, handleNotFoundBody hasSD r = "SDCARD Not Detected\n\n" ++ t) := by
  have dURI : ("URI: " : String).data = ['U', 'R', 'I', ':', ' '] := rfl
  have dSD : ("SDCARD Not Detected\n\n" : String).data
      = 'S' :: ("DCARD Not Detected\n\n" : String).data := rfl
  refine ⟨rfl, ?_, ?_, by cases hm : r.method <;> rfl, ?_, ?_, ?_⟩
  · exact ⟨(if hasSD then "" else "SDCARD Not Detected\n\n") ++ "URI: ",
      "\nMethod: " ++ methodText r.method ++ "\nArguments: "
        ++ toString r.args.length ++ "\n" ++ argLines r.args,
      by simp [handleNotFoundBody, String.append_assoc]⟩
  · exact ⟨(if hasSD then "" else "SDCARD Not Detected\n\n")
        ++ "URI: " ++ r.uri,
      "\nArguments: " ++ toString r.args.length ++ "\n" ++ argLines r.args,
      by simp [handleNotFoundBody, String.append_assoc]⟩
  · intro a ha
    have hchunk := argLines_decomp a r.args ha
    have hbody := body_has_argLines hasSD r
    constructor
    · refine containsSub_trans _ _ _ hbody
        (containsSub_trans _ _ _ hchunk ?_)
      exact ⟨" NAME:", "\n VALUE:" ++ a.2 ++ "\n",
        by simp [String.append_assoc]⟩
    · refine containsSub_trans _ _ _ hbody
        (containsSub_trans _ _ _ hchunk ?_)
      exact ⟨" NAME:" ++ a.1 ++ "\n VALUE:", "\n",
        by simp [String.append_assoc]⟩
  · intro hb
    subst hb
    have hSDlit : ∀ y : String,
        ("SDCARD Not Detected\n\n" : String) ++ ("URI: " ++ y)
          = "SDCARD Not Detected\n\nURI: " ++ y := by
      intro y
      rw [← String.append_assoc]
      rfl
    exact ⟨"URI: " ++ r.uri ++ "\nMethod: " ++ methodText r.method
        ++ "\nArguments: " ++ toString r.args.length ++ "\n"
        ++ argLines r.args,
      by simp [handleNotFoundBody, String.append_assoc, str_empty_append,
        hSDlit]⟩
  · intro hex
    obtain ⟨t, ht⟩ := hex
    cases hb : hasSD with
    | false => rfl
    | true =>
        exfalso
        rw [hb] at ht
        have hU : (handleNotFoundBody true r).data.head? = some 'U' := by
          simp [handleNotFoundBody, String.data_append, dURI,
            str_empty_append]
        have hS : (("SDCARD Not Detected\n\n" : String) ++ t).data.head?
            = some 'S' := by
          simp [String.data_append, dSD]
        rw [ht] at hU
        rw [hS] at hU
        exact absurd hU (by decide)

theorem notfound_body_diagnostics_witness :
    reqW.args.length ≤ 255
    ∧ ((handleNotFoundResp false reqW).code = 404
        ∧ containsSub (handleNotFoundBody false reqW) reqW.uri
        ∧ containsSub (handleNotFoundBody false reqW)
            ("\nMethod: " ++ methodText reqW.method)
        ∧ methodText reqW.method
            = (if reqW.method = HMethod.GET then "GET" else "POST")
        ∧ (∀ a ∈ reqW.args, containsSub (handleNotFoundBody false reqW) a.1
            ∧ containsSub (handleNotFoundBody false reqW) a.2)
        ∧ (false = false ↔
            ∃ t, handleNotFoundBody false reqW
              = "SDCARD Not Detected\n\n" ++ t)) :=
  ⟨by decide, notfound_body_diagnostics false reqW (by decide)⟩

/-- Claim C10: for every request reaching the fallback with a method other
than GET, the method line of the diagnostic body reads `POST` (e.g. PUT and
DELETE are reported as POST); only GET is reported as `GET`
(main.cpp line 209). -/
theorem notfound_method_reported_as_post (r : Req) (hasSD : Bool)
    (h : r.method ≠ HMethod.GET) :
    methodText r.method = "POST"
    ∧ containsSub (handleNotFoundBody hasSD r) ("\nMethod: " ++ "POST")
    ∧ methodText HMethod.GET = "GET" := by
  have hm : methodText r.method = "POST" := by
    cases hr : r.method
    · exact absurd hr h
    all_goals rfl
  refine ⟨hm, ?_, rfl⟩
  have hlit : ∀ y : String,
      ("\nMethod: POST" : String) ++ ("\nArguments: " ++ y)
        = "\nMethod: POST\nArguments: " ++ y := by
    intro y
    rw [← String.append_assoc]
    rfl
  exact ⟨(if hasSD then "" else "SDCARD Not Detected\n\n")
      ++ "URI: " ++ r.uri,
    "\nArguments: " ++ toString r.args.length ++ "\n" ++ argLines r.args,
    by simp [handleNotFoundBody, hm, String.append_assoc, hlit]⟩

theorem notfound_method_reported_as_post_witness :
    reqPut.method ≠ HMethod.GET
    ∧ (methodText reqPut.method = "POST"
        ∧ containsSub (handleNotFoundBody true reqPut)
            ("\nMethod: " ++ "POST")
        ∧ methodText HMethod.GET = "GET") :=
  ⟨by decide, notfound_method_reported_as_post reqPut true (by decide)⟩

theorem filter_isWrite_map_handle (reqs : List Nat) :
    ((reqs.map LEv.handleReq).filter isWrite) = [] := by
  induction reqs with
  | nil => rfl
  | cons a l ih => simp [List.filter_cons, isWrite, ih]

theorem noWriteAfterHandle_map (reqs : List Nat) :
    noWriteAfterHandle (reqs.map LEv.handleReq) = true := by
  induction reqs with
  | nil => rfl
  | cons a l ih => simp [noWriteAfterHandle, List.all_map, isWrite]

/-- Claim C6 counterexample: the directory-listing handler does not read the
DeviceAvailability flag at all — its response and event trace are identical
for both flag values on every input — refuting the claim that the flag "is
read by every request handler". -/
theorem hasSD_not_read_by_list_handler : ¬ printDirectoryReadsFlag :=
  fun ⟨_, _, _, _, h⟩ => h rfl

/-- Claim C6 (amended): the `hasSD` flag is assigned at most once — exactly
once when the device is detected, and then during `setup`, after
`server.begin()` but before any request is handled — and never reset
afterward; it is read by the not-found handler, whose response depends on
it, while the directory-listing and raw-image handlers do not read it
(their results are independent of the flag). -/
theorem hasSD_flag_discipline (sd : Bool) (reqs : List Nat) :
    ((lifecycle sd reqs).filter isWrite).length = (if sd then 1 else 0)
    ∧ noWriteAfterHandle (lifecycle sd reqs) = true
    ∧ (∀ b b' fs args,
        printDirectoryFull b fs args = printDirectoryFull b' fs args)
    ∧ (∀ b b' dev, streamRawFull b dev = streamRawFull b' dev)
    ∧ handleNotFoundFull true ⟨"/x", HMethod.GET, []⟩
        ≠ handleNotFoundFull false ⟨"/x", HMethod.GET, []⟩ := by
  refine ⟨?_, ?_, fun _ _ _ _ => rfl, fun _ _ _ => rfl, by decide⟩
  · cases sd <;>
      simp [lifecycle, List.filter_cons, List.filter_append, isWrite,
        filter_isWrite_map_handle]
  · cases sd <;>
      simp [lifecycle, noWriteAfterHandle, noWriteAfterHandle_map,
        List.all_map, isWrite]

end SDWebRecovery
